import Mathlib

/-!
Verification development for the gear-geometry engine (involute spur gear,
internal ring gear, linear rack) and its DXF exporter.

The JavaScript source computes with IEEE doubles; we embed the algorithms
over the real numbers `ℝ`, which is the mathematical content the spec
describes.  Every definition below is a direct transcription of the
corresponding function in `src/gear.js` / `src/dxf.js`; loops become
`List.range` maps or folds, mutation becomes explicit state passing, and
JavaScript's `undefined`/`NaN` option arguments become `Option ℝ`.
-/

namespace GearGeom

open Real

/-- A 2-D point, as the `{x, y}` objects of the source. -/
abbrev Point : Type := ℝ × ℝ

/-- `involutePoint` from `gear.js`: the standard involute-of-a-circle
parametrization `x = rb (cos t + t sin t)`, `y = rb (sin t − t cos t)`. -/
noncomputable def involutePoint (rb t : ℝ) : Point :=
  (rb * (Real.cos t + t * Real.sin t), rb * (Real.sin t - t * Real.cos t))

/-- `polar` from `gear.js`. -/
noncomputable def polar (r theta : ℝ) : Point :=
  (r * Real.cos theta, r * Real.sin theta)

/-- `rotate` from `gear.js`: rotation of a point about the origin. -/
noncomputable def rotate (pt : Point) (a : ℝ) : Point :=
  (pt.1 * Real.cos a - pt.2 * Real.sin a, pt.1 * Real.sin a + pt.2 * Real.cos a)

/-- `translate` from `gear.js`. -/
def translate (pt : Point) (dx dy : ℝ) : Point :=
  (pt.1 + dx, pt.2 + dy)

/-- `Math.atan2`, the two-argument arctangent with range `(−π, π]`
(real numbers have no signed zero, so `atan2 0 0 = 0` as for `+0`). -/
noncomputable def atan2 (y x : ℝ) : ℝ :=
  if 0 < x then Real.arctan (y / x)
  else if x < 0 then
    (if 0 ≤ y then Real.arctan (y / x) + Real.pi else Real.arctan (y / x) - Real.pi)
  else
    (if 0 < y then Real.pi / 2 else if y < 0 then -(Real.pi / 2) else 0)

/-- `angleOfPoint` from `gear.js`. -/
noncomputable def angleOfPoint (pt : Point) : ℝ := atan2 pt.2 pt.1

/-- Euclidean distance between two points. -/
noncomputable def distPt (p q : Point) : ℝ :=
  Real.sqrt ((p.1 - q.1) ^ 2 + (p.2 - q.2) ^ 2)

/-- Distance of a point from the origin. -/
noncomputable def norm2 (p : Point) : ℝ :=
  Real.sqrt (p.1 ^ 2 + p.2 ^ 2)

/-- The `type` field of a gear spec. -/
inductive GearType where
  | external : GearType
  | internal : GearType
  | rack : GearType
deriving DecidableEq

/-- The input record consumed by `computeGear` (`GearSpec` of the spec).
JavaScript `undefined`/falsy overrides become `Option ℝ`; the UI floors
`samples` at 12 before calling the engine. -/
structure GearInput where
  type : GearType
  N : ℕ
  D : ℝ
  phi : ℝ
  backlash : ℝ
  addendum : Option ℝ
  dedendum : Option ℝ
  rackLength : ℝ
  samples : ℕ

/-- The record returned by `computeGear` (`ComputedDimensions`). -/
structure Dims where
  type : GearType
  N : ℕ
  D : ℝ
  m : ℝ
  p : ℝ
  a : ℝ
  b : ℝ
  phi : ℝ
  phiDeg : ℝ
  backlash : ℝ
  s0 : ℝ
  s : ℝ
  Db : ℝ
  Do : ℝ
  Dr : ℝ
  Do_ext : ℝ
  Dr_ext : ℝ
  Dt_int : ℝ
  Dro_int : ℝ
  rackLength : ℝ
  NminNoUndercut : ℤ
  undercutRisk : Prop

/-- `computeGear` from `gear.js`.  Real inputs are always "finite", so the
rack-module fallback keeps only the `N > 0` test of the source's
`Number.isFinite(D) && Number.isFinite(N) && N > 0` guard. -/
noncomputable def computeGear (inp : GearInput) : Dims :=
  let m : ℝ :=
    match inp.type with
    | GearType.rack => if 0 < inp.N then inp.D / inp.N else 2
    | _ => inp.D / inp.N
  let p := Real.pi * m
  let a : ℝ :=
    match inp.addendum with
    | some v => if 0 < v then v else 1.0 * m
    | none => 1.0 * m
  let b : ℝ :=
    match inp.dedendum with
    | some v => if 0 < v then v else 1.25 * m
    | none => 1.25 * m
  let s0 := p / 2
  let s := max 0 (s0 - inp.backlash)
  let phiDeg := inp.phi * 180 / Real.pi
  let Db : ℝ :=
    match inp.type with
    | GearType.rack => 0
    | _ => inp.D * Real.cos inp.phi
  let Do_ext := inp.D + 2 * a
  let Dr_ext := max 0.001 (inp.D - 2 * b)
  let Do_int_tip := max 0.001 (inp.D - 2 * a)
  let Dr_int_root := inp.D + 2 * b
  let Nmin : ℤ := ⌈2 / Real.sin inp.phi ^ 2⌉
  { type := inp.type
    N := inp.N
    D := inp.D
    m := m
    p := p
    a := a
    b := b
    phi := inp.phi
    phiDeg := phiDeg
    backlash := inp.backlash
    s0 := s0
    s := s
    Db := Db
    Do := match inp.type with | GearType.internal => Dr_int_root | _ => Do_ext
    Dr := match inp.type with | GearType.internal => Do_int_tip | _ => Dr_ext
    Do_ext := Do_ext
    Dr_ext := Dr_ext
    Dt_int := Do_int_tip
    Dro_int := Dr_int_root
    rackLength := inp.rackLength
    NminNoUndercut := Nmin
    undercutRisk := inp.type ≠ GearType.rack ∧ (inp.N : ℤ) < Nmin }

/-- `sampleInvolute` from `gear.js`: `samples+1` points at parameters
`t = tMax · i/samples`, together with `tMax`. -/
noncomputable def sampleInvolute (rb rTarget : ℝ) (samples : ℕ) :
    List Point × ℝ :=
  let tMax := Real.sqrt (max 0 (rTarget * rTarget / (rb * rb) - 1))
  ((List.range (samples + 1)).map
      (fun (i : ℕ) => involutePoint rb (tMax * ((i : ℝ) / (samples : ℝ)))), tMax)

/-! ### External gear builder (`buildExternalGearPath`)

The body of `buildExternalGearPath` is transcribed as a family of named
definitions, one per intermediate array/value of the source, so that the
theorems below can speak about each stage. -/

/-- The rotation `rot = thetaPitchHalf − alphaPitch` computed at the top of
both gear builders (lines 130–141 resp. 219–223 of `gear.js`). -/
noncomputable def pitchRotAngle (c : Dims) : ℝ :=
  let rp := c.D / 2
  let rb := c.Db / 2
  let thetaPitchHalf := c.s / (2 * rp)
  let tp := Real.sqrt (max 0 (rp * rp / (rb * rb) - 1))
  thetaPitchHalf - angleOfPoint (involutePoint rb tp)

/-- The left flank of one external tooth: the sampled involute rotated by
`rot`, with the first sample replaced by the exact point at `rStart`. -/
noncomputable def extLeftFlank (c : Dims) (samples : ℕ) : List Point :=
  let rb := c.Db / 2
  let ra := c.Do_ext / 2
  let rr := c.Dr_ext / 2
  let rStart := max rr rb
  let rot := pitchRotAngle c
  let tStart := Real.sqrt (max 0 (rStart * rStart / (rb * rb) - 1))
  let pStart := rotate (involutePoint rb tStart) rot
  (((sampleInvolute rb ra samples).1).map (fun pt => rotate pt rot)).set 0 pStart

/-- The right flank: mirror of the left flank about the x-axis, reversed. -/
noncomputable def extRightFlank (c : Dims) (samples : ℕ) : List Point :=
  ((extLeftFlank c samples).map (fun pt => (pt.1, -pt.2))).reverse

/-- `tipSteps = Math.max(10, Math.floor(samples/2))`. -/
def arcSteps (samples : ℕ) : ℕ := max 10 (samples / 2)

/-- The pair `(ang1, ang2)` of tip-arc angles: `ang1 = angL`, and `ang2` is
`angR` wrapped forward by `2π` when `angR < angL`. -/
noncomputable def extTipAngles (c : Dims) (samples : ℕ) : ℝ × ℝ :=
  let tipL := (extLeftFlank c samples).getLastD (0, 0)
  let tipR := (extRightFlank c samples).headD (0, 0)
  let angL := atan2 tipL.2 tipL.1
  let angR := atan2 tipR.2 tipR.1
  (angL, if angR < angL then angR + 2 * Real.pi else angR)

/-- The tip-arc points: `polar ra (ang1 + (ang2−ang1)·i/tipSteps)` for
`i = 1 .. tipSteps−1`. -/
noncomputable def extTipPts (c : Dims) (samples : ℕ) : List Point :=
  let ra := c.Do_ext / 2
  let steps := arcSteps samples
  let A := extTipAngles c samples
  (List.range' 1 (steps - 1)).map
    (fun (i : ℕ) => polar ra (A.1 + (A.2 - A.1) * ((i : ℝ) / (steps : ℝ))))

/-- The root-arc points between the right-flank root and the left-flank
root, at radius `rr`. -/
noncomputable def extRootPts (c : Dims) (samples : ℕ) : List Point :=
  let rr := c.Dr_ext / 2
  let rootL := (extLeftFlank c samples).headD (0, 0)
  let rootR := (extRightFlank c samples).getLastD (0, 0)
  let ar1 := atan2 rootR.2 rootR.1
  let ar2p := atan2 rootL.2 rootL.1
  let ar2 := if ar2p < ar1 then ar2p + 2 * Real.pi else ar2p
  let steps := arcSteps samples
  (List.range' 1 (steps - 1)).map
    (fun (i : ℕ) => polar rr (ar1 + (ar2 - ar1) * ((i : ℝ) / (steps : ℝ))))

/-- One external tooth boundary: left flank, tip arc, right flank, root arc. -/
noncomputable def extToothPts (c : Dims) (samples : ℕ) : List Point :=
  extLeftFlank c samples ++ extTipPts c samples ++
    extRightFlank c samples ++ extRootPts c samples

/-- `buildExternalGearPath`: the tooth boundary replicated `N` times by
rotation about the center and translated to `(cx, cy)`; returns the list of
`N` closed polylines. -/
noncomputable def buildExternalGearPath (c : Dims) (samples : ℕ) (cx cy : ℝ) :
    List (List Point) :=
  (List.range c.N).map (fun (k : ℕ) =>
    (extToothPts c samples).map
      (fun p => translate (rotate p ((k : ℝ) * (2 * Real.pi / (c.N : ℝ)))) cx cy))

/-! ### Internal gear builder (`buildInternalGearPath`) -/

/-- The clamped flank parameter bound
`tTip = sqrt(max(0, (rTipInner/rb)² − 1))` of the internal builder. -/
noncomputable def intTTip (c : Dims) : ℝ :=
  let rb := c.Db / 2
  let rTipInner := c.Dt_int / 2
  Real.sqrt (max 0 (rTipInner * rTipInner / (rb * rb) - 1))

/-- The internal-gear flank points (lines 227–234 of `gear.js`):
`samples+1` rotated involute points at parameters `t = tTip · i/samples`. -/
noncomputable def intFlankPts (c : Dims) (samples : ℕ) : List Point :=
  let rb := c.Db / 2
  let rot := pitchRotAngle c
  (List.range (samples + 1)).map
    (fun (i : ℕ) => rotate (involutePoint rb (intTTip c * ((i : ℝ) / (samples : ℝ)))) rot)

/-- Right flank of the internal tooth space. -/
noncomputable def intRightFlank (c : Dims) (samples : ℕ) : List Point :=
  ((intFlankPts c samples).map (fun pt => (pt.1, -pt.2))).reverse

/-- Inner tip arc of the internal tooth space, at radius `rTipInner`. -/
noncomputable def intTipPts (c : Dims) (samples : ℕ) : List Point :=
  let rTipInner := c.Dt_int / 2
  let tipL := (intFlankPts c samples).getLastD (0, 0)
  let tipR := (intRightFlank c samples).headD (0, 0)
  let angL := atan2 tipL.2 tipL.1
  let angR0 := atan2 tipR.2 tipR.1
  let angR := if angR0 < angL then angR0 + 2 * Real.pi else angR0
  let steps := arcSteps samples
  (List.range' 1 (steps - 1)).map
    (fun (i : ℕ) => polar rTipInner (angL + (angR - angL) * ((i : ℝ) / (steps : ℝ))))

/-- Root arc of the internal tooth space, at radius `rRootOuter`; note the
source takes `ar1` from the *left* root here, unlike the external builder. -/
noncomputable def intRootPts (c : Dims) (samples : ℕ) : List Point :=
  let rRootOuter := c.Dro_int / 2
  let rootL := (intFlankPts c samples).headD (0, 0)
  let rootR := (intRightFlank c samples).getLastD (0, 0)
  let ar1 := atan2 rootL.2 rootL.1
  let ar2p := atan2 rootR.2 rootR.1
  let ar2 := if ar2p < ar1 then ar2p + 2 * Real.pi else ar2p
  let steps := arcSteps samples
  (List.range' 1 (steps - 1)).map
    (fun (i : ℕ) => polar rRootOuter (ar1 + (ar2 - ar1) * ((i : ℝ) / (steps : ℝ))))

/-- One internal tooth-space boundary. -/
noncomputable def intToothSpacePts (c : Dims) (samples : ℕ) : List Point :=
  intFlankPts c samples ++ intTipPts c samples ++
    intRightFlank c samples ++ intRootPts c samples

/-- `buildInternalGearPath`: the tooth-space boundary replicated `N` times. -/
noncomputable def buildInternalGearPath (c : Dims) (samples : ℕ) (cx cy : ℝ) :
    List (List Point) :=
  (List.range c.N).map (fun (k : ℕ) =>
    (intToothSpacePts c samples).map
      (fun p => translate (rotate p ((k : ℝ) * (2 * Real.pi / (c.N : ℝ)))) cx cy))

/-! ### Rack builder (`buildRackPath`) -/

/-- The `push` closure of `buildRackPath`: append `pt` unless it coincides
with the current last point within `1e-6` in both coordinates. -/
noncomputable def pushPt (top : List Point) (pt : Point) : List Point :=
  match top.getLast? with
  | none => top ++ [pt]
  | some last =>
    if 1e-6 < |last.1 - pt.1| ∨ 1e-6 < |last.2 - pt.2| then top ++ [pt] else top

/-- One iteration of the rack tooth loop: compute the four key x-locations
of the tooth centred at `x0 + i·p`, clamp them to `[x0, x1]`, and push the
four outline points if the unclamped tooth intersects the span. -/
noncomputable def rackTooth (x0 x1 yRoot yTip half run p : ℝ)
    (top : List Point) (i : ℤ) : List Point :=
  let xc := x0 + (i : ℝ) * p
  let rootL := xc - half - run
  let tipL := xc - half
  let tipR := xc + half
  let rootR := xc + half + run
  let rL := max x0 (min x1 rootL)
  let tL := max x0 (min x1 tipL)
  let tR := max x0 (min x1 tipR)
  let rR := max x0 (min x1 rootR)
  if x0 ≤ rootR ∧ rootL ≤ x1 then
    pushPt (pushPt (pushPt (pushPt top (rL, yRoot)) (tL, yTip)) (tR, yTip)) (rR, yRoot)
  else top

/-- `count = Math.max(2, Math.ceil(L/p) + 2)`. -/
noncomputable def rackCount (L p : ℝ) : ℤ := max 2 (⌈L / p⌉ + 2)

/-- The `top` array of `buildRackPath` after the tooth loop (`i` runs from
`−1` to `count` inclusive), seeded with the left root point. -/
noncomputable def rackTopRaw (c : Dims) (x y : ℝ) : List Point :=
  let p := c.p
  let L := c.rackLength
  let x0 := x
  let x1 := x + L
  let yTip := y - c.a
  let yRoot := y + c.b
  let half := c.s / 2
  let run := (c.a + c.b) / Real.tan c.phi
  let count := rackCount L p
  (List.range (count.toNat + 2)).foldl
    (fun (top : List Point) (k : ℕ) => rackTooth x0 x1 yRoot yTip half run p top ((k : ℤ) - 1))
    [(x0, yRoot)]

/-- The `top` array after the final "end exactly at right root" fix-up
(the point `(x1, yRoot)` is appended unconditionally, not via `push`). -/
noncomputable def rackTopPts (c : Dims) (x y : ℝ) : List Point :=
  let top := rackTopRaw c x y
  let x1 := x + c.rackLength
  let yRoot := y + c.b
  if top = [] ∨ (top.getLastD (0, 0)).1 ≠ x1 then top ++ [(x1, yRoot)] else top

/-- `buildRackPath`: the top outline closed with the two backing-plate
points at depth `max(0.0001, 1.2·b)` below the root line. -/
noncomputable def buildRackPath (c : Dims) (x y : ℝ) : List Point :=
  let x0 := x
  let x1 := x + c.rackLength
  let yRoot := y + c.b
  let backing := max 0.0001 (c.b * 1.2)
  let yBack := yRoot + backing
  rackTopPts c x y ++ [(x1, yBack), (x0, yBack)]

/-! ### Formatter (`fmt`)

JavaScript numbers can be `NaN` or `±Infinity`, which `ℝ` cannot express,
so `fmt`'s argument is modelled by `JSNum`.  `Number.toFixed(d)` renders a
decimal string; we model its output abstractly as the pair (value rendered,
number of decimals), which is what the spec's contract is about. -/

/-- A JavaScript number: a finite real or one of the non-finite values. -/
inductive JSNum where
  | fin : ℝ → JSNum
  | nan : JSNum
  | posInf : JSNum
  | negInf : JSNum

/-- The result of `fmt`: either the em-dash placeholder, or a numeric
rendering of a value with a fixed number of decimals. -/
inductive FmtResult where
  | placeholder : FmtResult
  | rendered : JSNum → ℕ → FmtResult

/-- `Math.round(v*10)/10` on a JavaScript number (`Math.round = ⌊x + ½⌋`;
`NaN` and `±Infinity` propagate). -/
noncomputable def degRound : JSNum → JSNum
  | JSNum.fin x => JSNum.fin ((⌊x * 10 + 1 / 2⌋ : ℤ) / 10)
  | JSNum.nan => JSNum.nan
  | JSNum.posInf => JSNum.posInf
  | JSNum.negInf => JSNum.negInf

/-- `Math.round(v·10^d)/10^d` on a finite value. -/
noncomputable def magRound (d : ℕ) (x : ℝ) : ℝ :=
  (⌊x * 10 ^ d + 1 / 2⌋ : ℤ) / 10 ^ d

/-- The adaptive decimal count of `fmt` (`abs >= 100 ? 2 : abs >= 10 ? 3 : 4`;
JavaScript comparisons with `NaN` are false, and `|±∞| ≥ 100` is true). -/
noncomputable def fmtDecimals : JSNum → ℕ
  | JSNum.fin x => if 100 ≤ |x| then 2 else if 10 ≤ |x| then 3 else 4
  | JSNum.nan => 4
  | JSNum.posInf => 2
  | JSNum.negInf => 2

/-- `fmt` from `gear.js`.  The `'deg'` branch renders unconditionally
(before the finiteness check); otherwise non-finite values become the
placeholder `'—'`. -/
noncomputable def fmt (v : JSNum) (unit : String) : FmtResult :=
  if unit = "deg" then FmtResult.rendered (degRound v) 1
  else
    let d := fmtDecimals v
    match v with
    | JSNum.fin x => FmtResult.rendered (JSNum.fin (magRound d x)) d
    | _ => FmtResult.placeholder

/-! ### DXF exporter (`dxf.js`)

The exporter builds a newline-joined list of DXF group-code lines.  We
model the output at the line level: a `Token` is either a literal string
line or a numeric line produced by `num` (whose decimal string rendering
is out of scope — the rounded real value is the content). -/

/-- One output line of the DXF writer. -/
inductive Token where
  | s : String → Token
  | n : ℝ → Token

/-- `num` from `dxf.js`: round to 3 decimals (`Math.round(n·1000)/1000`). -/
noncomputable def num (x : ℝ) : ℝ := (⌊x * 1000 + 1 / 2⌋ : ℤ) / 1000

/-- The `header()` lines. -/
def headerTokens : List Token :=
  [Token.s ("0"), Token.s ("SECTION"), Token.s ("2"), Token.s ("HEADER"),
   Token.s ("9"), Token.s ("$ACADVER"), Token.s ("1"), Token.s ("AC1009"),
   Token.s ("0"), Token.s ("ENDSEC"), Token.s ("0"), Token.s ("SECTION"),
   Token.s ("2"), Token.s ("ENTITIES")]

/-- The `footer()` lines. -/
def footerTokens : List Token :=
  [Token.s ("0"), Token.s ("ENDSEC"), Token.s ("0"), Token.s ("EOF")]

/-- The per-vertex lines pushed inside `polyline()`. -/
noncomputable def vertexTokens (layer : String) (p : Point) : List Token :=
  [Token.s ("0"), Token.s ("VERTEX"), Token.s ("8"), Token.s layer,
   Token.s ("10"), Token.n (num p.1), Token.s ("20"), Token.n (num p.2),
   Token.s ("30"), Token.s ("0")]

/-- `polyline()` from `dxf.js`: entity head, one vertex record per point,
and the `SEQEND` terminator. -/
noncomputable def polylineTokens (pts : List Point) (layer : String)
    (closed : Bool) : List Token :=
  [Token.s ("0"), Token.s ("POLYLINE"), Token.s ("8"), Token.s layer,
   Token.s ("66"), Token.s ("1"), Token.s ("70"),
   Token.s (if closed then ("1") else ("0"))] ++
  pts.flatMap (vertexTokens layer) ++ [Token.s ("0"), Token.s ("SEQEND")]

/-- `dxfFromPolylines`: header, one closed entity per input entry having at
least 2 points (entries that are null or shorter are skipped; the 1-based
layer index follows the original array position), footer.  A JavaScript
array slot that is `null`/`undefined` is modelled by `none`. -/
noncomputable def dxfFromPolylines (polys : List (Option (List Point)))
    (layer : String) : List Token :=
  headerTokens ++
  (polys.enum.flatMap (fun ip =>
    match ip.2 with
    | none => []
    | some pts =>
      if pts.length < 2 then []
      else polylineTokens pts (layer ++ "_" ++ toString (ip.1 + 1)) true)) ++
  footerTokens

/-! ### A reader for the entity section

To state the round-trip properties (C2, C9) we parse the token stream back
into blocks: a scanner recognising `POLYLINE` entity heads and `VERTEX`
records.  The guards test at most two leading tokens before committing, so
the scanner's behaviour on every prefix of interest is determined without
inspecting the rest of the stream. -/

/-- Recognise one `VERTEX` record at the head of the stream: returns the
two coordinate values, the z-line token, and the remaining stream. -/
def vertexOf? (ts : List Token) : Option ((ℝ × ℝ × Token) × List Token) :=
  match ts with
  | Token.s a :: rest1 =>
    if a = "0" then
      match rest1 with
      | Token.s b :: rest2 =>
        if b = "VERTEX" then
          match rest2 with
          | Token.s c :: Token.s _ :: Token.s d :: Token.n x ::
              Token.s e :: Token.n y :: Token.s f :: z :: rest =>
            if c = "8" ∧ d = "10" ∧ e = "20" ∧ f = "30" then
              some ((x, y, z), rest)
            else none
          | _ => none
        else none
      | _ => none
    else none
  | _ => none

/-- Recognise a `POLYLINE` entity head: returns the layer name and the
stream after the `70` flag line. -/
def blockHead? (ts : List Token) : Option (String × List Token) :=
  match ts with
  | Token.s a :: rest1 =>
    if a = "0" then
      match rest1 with
      | Token.s b :: rest2 =>
        if b = "POLYLINE" then
          match rest2 with
          | Token.s c :: Token.s l :: Token.s d :: Token.s e :: Token.s f ::
              _ :: rest =>
            if c = "8" ∧ d = "66" ∧ e = "1" ∧ f = "70" then some (l, rest)
            else none
          | _ => none
        else none
      | _ => none
    else none
  | _ => none

/-- A recognised `VERTEX` record consumes exactly 10 lines. -/
theorem vertexOf?_length {ts : List Token} {vr} (h : vertexOf? ts = some vr) :
    vr.2.length + 10 = ts.length := by
  unfold vertexOf? at h
  repeat split at h
  all_goals simp_all
  cases h
  simp

/-- A recognised `POLYLINE` head consumes exactly 8 lines. -/
theorem blockHead?_length {ts : List Token} {lr} (h : blockHead? ts = some lr) :
    lr.2.length + 8 = ts.length := by
  unfold blockHead? at h
  repeat split at h
  all_goals simp_all
  cases h
  simp

/-- Collect the consecutive `VERTEX` records at the head of the stream. -/
def parseVerts (ts : List Token) : List (ℝ × ℝ × Token) × List Token :=
  match h : vertexOf? ts with
  | some vr =>
    let r := parseVerts vr.2
    (vr.1 :: r.1, r.2)
  | none => ([], ts)
termination_by ts.length
decreasing_by
  have := vertexOf?_length h
  omega

/-- Unfolding `parseVerts` when a vertex record is recognised. -/
theorem parseVerts_some {ts : List Token} {vr} (h : vertexOf? ts = some vr) :
    parseVerts ts = (vr.1 :: (parseVerts vr.2).1, (parseVerts vr.2).2) := by
  rw [parseVerts.eq_def]
  split
  next vr' h' =>
    rw [h] at h'
    cases h'
    rfl
  next h' =>
    rw [h] at h'
    cases h'

/-- Unfolding `parseVerts` when no vertex record is recognised. -/
theorem parseVerts_none {ts : List Token} (h : vertexOf? ts = none) :
    parseVerts ts = ([], ts) := by
  rw [parseVerts.eq_def]
  split
  next vr' h' =>
    rw [h] at h'
    cases h'
  next => rfl

/-- `parseVerts` only consumes tokens. -/
theorem parseVerts_rest_le (ts : List Token) :
    (parseVerts ts).2.length ≤ ts.length := by
  induction ts using parseVerts.induct with
  | case1 ts vr h ih =>
    rw [parseVerts_some h]
    have hlen := vertexOf?_length h
    dsimp only
    omega
  | case2 ts h =>
    rw [parseVerts_none h]

/-- Scan the whole stream, collecting every `POLYLINE` block (layer name
plus vertex records). -/
def parseBlocks (ts : List Token) : List (String × List (ℝ × ℝ × Token)) :=
  match h : blockHead? ts with
  | some lr =>
    let r := parseVerts lr.2
    (lr.1, r.1) :: parseBlocks r.2
  | none =>
    match ts with
    | [] => []
    | _ :: rest => parseBlocks rest
termination_by ts.length
decreasing_by
  · have h1 := blockHead?_length h
    have h2 := parseVerts_rest_le lr.2
    omega
  · simp_arith

/-- Unfolding `parseBlocks` at a recognised `POLYLINE` head. -/
theorem parseBlocks_some {ts : List Token} {lr} (h : blockHead? ts = some lr) :
    parseBlocks ts =
      (lr.1, (parseVerts lr.2).1) :: parseBlocks (parseVerts lr.2).2 := by
  rw [parseBlocks.eq_def]
  split
  next lr' h' =>
    rw [h] at h'
    cases h'
    rfl
  next h' =>
    rw [h] at h'
    cases h'

/-- `parseBlocks` of the empty stream. -/
theorem parseBlocks_nil : parseBlocks [] = [] := by
  rw [parseBlocks.eq_def]
  rfl

/-- `parseBlocks` skips a token that does not start a `POLYLINE` head. -/
theorem parseBlocks_skip {t : Token} {ts : List Token}
    (h : blockHead? (t :: ts) = none) :
    parseBlocks (t :: ts) = parseBlocks ts := by
  rw [parseBlocks.eq_def]
  split
  next lr' h' =>
    rw [h] at h'
    cases h'
  next => rfl

/-! ### Basic geometric lemmas -/

theorem norm2_nonneg (p : Point) : 0 ≤ norm2 p := Real.sqrt_nonneg _

theorem norm2_rotate (p : Point) (a : ℝ) : norm2 (rotate p a) = norm2 p := by
  unfold norm2 rotate
  congr 1
  have h := Real.sin_sq_add_cos_sq a
  linear_combination (p.1 ^ 2 + p.2 ^ 2) * h

theorem norm2_involutePoint {rb : ℝ} (t : ℝ) (h : 0 ≤ rb) :
    norm2 (involutePoint rb t) = rb * Real.sqrt (1 + t ^ 2) := by
  unfold norm2 involutePoint
  have harg : (rb * (Real.cos t + t * Real.sin t)) ^ 2 +
      (rb * (Real.sin t - t * Real.cos t)) ^ 2 = rb ^ 2 * (1 + t ^ 2) := by
    have hs := Real.sin_sq_add_cos_sq t
    linear_combination (rb ^ 2 + rb ^ 2 * t ^ 2) * hs
  rw [harg, Real.sqrt_mul (sq_nonneg rb), Real.sqrt_sq h]

theorem norm2_polar (r theta : ℝ) : norm2 (polar r theta) = |r| := by
  unfold norm2 polar
  have harg : (r * Real.cos theta) ^ 2 + (r * Real.sin theta) ^ 2 = r ^ 2 := by
    have hs := Real.sin_sq_add_cos_sq theta
    linear_combination r ^ 2 * hs
  rw [harg, Real.sqrt_sq_eq_abs]

theorem norm2_mirror (p : Point) : norm2 (p.1, -p.2) = norm2 p := by
  simp [norm2, neg_sq]

theorem distPt_translate (q : Point) (cx cy : ℝ) :
    distPt (translate q cx cy) (cx, cy) = norm2 q := by
  simp [distPt, translate, norm2]

theorem distPt_origin (p : Point) : distPt p (0, 0) = norm2 p := by
  simp [distPt, norm2]

theorem rotate_zero (p : Point) : rotate p 0 = p := by
  simp [rotate]

theorem translate_zero (p : Point) : translate p 0 0 = p := by
  simp [translate]

/-! ### Concrete specs used as instances below -/

/-- The spec of example 3 of the spec: `type=internal, N=20, D=40, phi=20°`,
no overrides, zero backlash. -/
noncomputable def specInternal20 : GearInput :=
  ⟨GearType.internal, 20, 40, Real.pi / 9, 0, none, none, 0, 48⟩

/-! ### C5 -/

/-- C5: for every spec with `backlash ≥ 0` (and the data-model constraints
`D ≥ 0`, `N > 0` that make the module non-negative), `computeGear` returns
`s0 = p/2` and `s = max(0, s0 − backlash)`, whence `0 ≤ s ≤ s0`. -/
theorem C5_tooth_thickness (inp : GearInput) (hD : 0 ≤ inp.D) (hN : 0 < inp.N)
    (hb : 0 ≤ inp.backlash) :
    (computeGear inp).s0 = (computeGear inp).p / 2 ∧
    (computeGear inp).s = max 0 ((computeGear inp).s0 - inp.backlash) ∧
    0 ≤ (computeGear inp).s ∧ (computeGear inp).s ≤ (computeGear inp).s0 := by
  have hm : 0 ≤ (computeGear inp).m := by
    simp only [computeGear]
    cases inp.type <;> simp only [hN, if_true] <;>
      exact div_nonneg hD (Nat.cast_nonneg _)
  have hp : 0 ≤ (computeGear inp).p :=
    mul_nonneg (le_of_lt Real.pi_pos) hm
  have hs0 : (computeGear inp).s0 = (computeGear inp).p / 2 := rfl
  have hs : (computeGear inp).s = max 0 ((computeGear inp).s0 - inp.backlash) := rfl
  refine ⟨hs0, hs, ?_, ?_⟩
  · rw [hs]
    exact le_max_left _ _
  · rw [hs]
    have h1 : 0 ≤ (computeGear inp).s0 := by
      rw [hs0]
      positivity
    have h2 : (computeGear inp).s0 - inp.backlash ≤ (computeGear inp).s0 := by
      linarith
    exact max_le h1 h2

/-- C5 witness: the theorem at a concrete spec. -/
theorem C5_tooth_thickness_witness :
    (0 : ℝ) ≤ 40 ∧ 0 < 20 ∧ (0 : ℝ) ≤ 1 ∧
      0 ≤ (computeGear ⟨GearType.external, 20, 40, Real.pi / 9, 1, none, none, 0, 48⟩).s :=
  ⟨by norm_num, by norm_num,
   by norm_num,
   (C5_tooth_thickness ⟨GearType.external, 20, 40, Real.pi / 9, 1, none, none, 0, 48⟩
     (by norm_num) (by norm_num) (by norm_num)).2.2.1⟩

/-! ### C3 -/

/-- C3: for every internal spec the exported `Do` is the outer root circle
`D + 2b` and the exported `Dr` is the inner tip circle `max(0.001, D − 2a)`
(the swap relative to external gears); in particular at
`N=20, D=40, phi=20°` with default proportions, `Do = 45` and `Dr = 36`. -/
theorem C3_internal_swap (inp : GearInput) (h : inp.type = GearType.internal) :
    ((computeGear inp).Do = inp.D + 2 * (computeGear inp).b ∧
     (computeGear inp).Dr = max 0.001 (inp.D - 2 * (computeGear inp).a)) ∧
    ((computeGear specInternal20).Do = 45 ∧
     (computeGear specInternal20).Dr = 36) := by
  refine ⟨⟨?_, ?_⟩, ?_, ?_⟩
  · simp only [computeGear, h]
  · simp only [computeGear, h]
  · simp only [computeGear, specInternal20]
    norm_num
  · simp only [computeGear, specInternal20]
    norm_num

/-- C3 witness: the theorem applied at the concrete internal spec. -/
theorem C3_internal_swap_witness :
    specInternal20.type = GearType.internal ∧
      (computeGear specInternal20).Do = 45 :=
  ⟨rfl, (C3_internal_swap specInternal20 rfl).2.1⟩

/-! ### C10 -/

/-- C10: in the internal builder, whenever the inner tip radius
`rTipInner = Dt_int/2` is at most the base radius `rb = Db/2`, the flank
parameter bound `tTip` clamps to `0` and all `samples+1` flank points are
the single rotated base-circle point — the flank degenerates, with no
substitute radial point inserted. -/
theorem C10_internal_degenerate_flank (inp : GearInput)
    (h : (computeGear inp).Dt_int / 2 ≤ (computeGear inp).Db / 2) :
    intTTip (computeGear inp) = 0 ∧
    intFlankPts (computeGear inp) inp.samples =
      List.replicate (inp.samples + 1)
        (rotate ((computeGear inp).Db / 2, 0) (pitchRotAngle (computeGear inp))) := by
  have hDt : (0 : ℝ) < (computeGear inp).Dt_int := by
    have : (computeGear inp).Dt_int
        = max 0.001 (inp.D - 2 * (computeGear inp).a) := rfl
    rw [this]
    exact lt_of_lt_of_le (by norm_num) (le_max_left _ _)
  have hrT : (0 : ℝ) < (computeGear inp).Dt_int / 2 := by positivity
  have hrb : (0 : ℝ) < (computeGear inp).Db / 2 := lt_of_lt_of_le hrT h
  have ht : intTTip (computeGear inp) = 0 := by
    unfold intTTip
    dsimp only
    have hle : (computeGear inp).Dt_int / 2 * ((computeGear inp).Dt_int / 2) /
        ((computeGear inp).Db / 2 * ((computeGear inp).Db / 2)) - 1 ≤ 0 := by
      rw [sub_nonpos, div_le_one (by positivity)]
      have := mul_le_mul h h (le_of_lt hrT) (le_of_lt hrb)
      linarith
    rw [max_eq_left hle, Real.sqrt_zero]
  refine ⟨ht, ?_⟩
  unfold intFlankPts
  rw [ht]
  have hpt : ∀ i : ℕ,
      rotate (involutePoint ((computeGear inp).Db / 2)
        (0 * ((i : ℝ) / (inp.samples : ℝ)))) (pitchRotAngle (computeGear inp))
      = rotate ((computeGear inp).Db / 2, 0) (pitchRotAngle (computeGear inp)) := by
    intro i
    simp [involutePoint]
  simp only [hpt]
  rw [List.map_const', List.length_range]

/-- C10 witness: `N=4, D=40, φ=60°` gives `rTipInner = 10 = rb`, so the
hypothesis holds and the flank degenerates. -/
theorem C10_internal_degenerate_flank_witness :
    (computeGear ⟨GearType.internal, 4, 40, Real.pi / 3, 0, none, none, 0, 12⟩).Dt_int / 2 ≤
      (computeGear ⟨GearType.internal, 4, 40, Real.pi / 3, 0, none, none, 0, 12⟩).Db / 2 ∧
    intTTip (computeGear ⟨GearType.internal, 4, 40, Real.pi / 3, 0, none, none, 0, 12⟩) = 0 := by
  have h : (computeGear ⟨GearType.internal, 4, 40, Real.pi / 3, 0, none, none, 0, 12⟩).Dt_int / 2 ≤
      (computeGear ⟨GearType.internal, 4, 40, Real.pi / 3, 0, none, none, 0, 12⟩).Db / 2 := by
    simp only [computeGear]
    norm_num [Real.cos_pi_div_three]
  exact ⟨h, (C10_internal_degenerate_flank _ h).1⟩

/-! ### C6 -/

/-- C6: `sampleInvolute rb rTarget k` returns `k+1` points and
`tMax = sqrt(max(0,(rTarget/rb)²−1))`; the `i`-th point is the involute
point at `t = tMax·(i/k)`; the first point is `(rb, 0)`; when
`rTarget ≥ rb` the last point is at distance `rTarget` from the origin;
and when `rTarget < rb`, `tMax = 0` and every point equals `(rb, 0)`. -/
theorem C6_sampleInvolute (rb rT : ℝ) (k : ℕ) (hrb : 0 < rb) (hrT : 0 ≤ rT)
    (hk : 12 ≤ k) :
    (sampleInvolute rb rT k).1.length = k + 1 ∧
    (sampleInvolute rb rT k).2 = Real.sqrt (max 0 ((rT / rb) ^ 2 - 1)) ∧
    (∀ i, i < k + 1 → (sampleInvolute rb rT k).1.get? i =
      some (involutePoint rb ((sampleInvolute rb rT k).2 * ((i : ℝ) / (k : ℝ))))) ∧
    (sampleInvolute rb rT k).1.head? = some (rb, 0) ∧
    (rb ≤ rT → distPt ((sampleInvolute rb rT k).1.getLastD (0, 0)) (0, 0) = rT) ∧
    (rT < rb → (sampleInvolute rb rT k).2 = 0 ∧
      ∀ pt ∈ (sampleInvolute rb rT k).1, pt = (rb, 0)) := by
  have hk0 : (k : ℝ) ≠ 0 := by
    have : 0 < k := lt_of_lt_of_le (by norm_num) hk
    exact_mod_cast Nat.pos_iff_ne_zero.mp this
  have hratio : rT * rT / (rb * rb) = (rT / rb) ^ 2 := by
    ring
  refine ⟨?_, ?_, ?_, ?_, ?_, ?_⟩
  · simp [sampleInvolute]
  · simp only [sampleInvolute]
    rw [hratio]
  · intro i hi
    simp only [sampleInvolute, List.get?_map]
    rw [List.get?_range hi]
    rfl
  · simp only [sampleInvolute]
    rw [List.range_succ_eq_map]
    simp [involutePoint]
  · intro hle
    have hlast : ((sampleInvolute rb rT k).1).getLastD (0, 0)
        = involutePoint rb ((sampleInvolute rb rT k).2 * ((k : ℝ) / (k : ℝ))) := by
      simp only [sampleInvolute]
      rw [List.range_succ, List.map_append]
      simp
    rw [hlast, div_self hk0, mul_one, distPt_origin,
      norm2_involutePoint _ (le_of_lt hrb)]
    have hsq : (sampleInvolute rb rT k).2 ^ 2 = rT * rT / (rb * rb) - 1 := by
      simp only [sampleInvolute]
      have harg : (0 : ℝ) ≤ rT * rT / (rb * rb) - 1 := by
        rw [sub_nonneg, le_div_iff (by positivity)]
        nlinarith
      rw [max_eq_right harg]
      exact Real.sq_sqrt harg
    rw [hsq]
    have : 1 + (rT * rT / (rb * rb) - 1) = (rT / rb) ^ 2 := by
      field_simp
      ring
    rw [this, Real.sqrt_sq (by positivity)]
    field_simp
  · intro hlt
    have harg : rT * rT / (rb * rb) - 1 ≤ 0 := by
      rw [sub_nonpos, div_le_one (by positivity)]
      nlinarith
    have hsqrt : Real.sqrt (max 0 (rT * rT / (rb * rb) - 1)) = 0 := by
      rw [max_eq_left harg, Real.sqrt_zero]
    have ht0 : (sampleInvolute rb rT k).2 = 0 := by
      simp only [sampleInvolute]
      exact hsqrt
    refine ⟨ht0, ?_⟩
    intro pt hpt
    simp only [sampleInvolute, List.mem_map, List.mem_range] at hpt
    obtain ⟨i, _, hi⟩ := hpt
    rw [hsqrt] at hi
    rw [← hi]
    simp [involutePoint]

/-- C6 witness: the theorem at `rb = 1`, `rTarget = 2`, `k = 12`. -/
theorem C6_sampleInvolute_witness :
    (0 : ℝ) < 1 ∧ (0 : ℝ) ≤ 2 ∧ 12 ≤ 12 ∧
      (sampleInvolute 1 2 12).1.length = 12 + 1 :=
  ⟨by norm_num, by norm_num, le_rfl,
   (C6_sampleInvolute 1 2 12 (by norm_num) (by norm_num) le_rfl).1⟩

/-! ### C8 -/

/-- C8 counterexample: the claim asserts that every non-finite value
formats as the placeholder for *every* unit tag including `'deg'`, but the
`'deg'` branch of `fmt` renders before the finiteness check, so `NaN`
formats as the numeric rendering `"NaN"` (modelled as `rendered nan 1`),
not as the placeholder. -/
theorem C8_counterexample :
    fmt JSNum.nan ("deg") = FmtResult.rendered JSNum.nan 1 ∧
    fmt JSNum.nan ("deg") ≠ FmtResult.placeholder := by
  constructor
  · simp [fmt, degRound]
  · simp [fmt, degRound]

/-- C8 amended: `deg` always renders `round(v·10)/10` with 1 decimal (also
for non-finite `v`, which therefore render numerically, e.g. `"NaN"`);
for any other unit tag, a finite `v` renders with 2 decimals when
`|v| ≥ 100`, 3 when `|v| ≥ 10`, else 4, and a non-finite `v` yields the
placeholder. -/
theorem C8_fmt_contract (v : JSNum) (u : String) :
    (u = "deg" → fmt v u = FmtResult.rendered (degRound v) 1) ∧
    (u ≠ "deg" →
      (∀ x : ℝ, v = JSNum.fin x →
        fmt v u = FmtResult.rendered
          (JSNum.fin (magRound (if 100 ≤ |x| then 2 else if 10 ≤ |x| then 3 else 4) x))
          (if 100 ≤ |x| then 2 else if 10 ≤ |x| then 3 else 4)) ∧
      ((v = JSNum.nan ∨ v = JSNum.posInf ∨ v = JSNum.negInf) →
        fmt v u = FmtResult.placeholder)) := by
  constructor
  · intro h
    simp [fmt, h]
  · intro h
    constructor
    · intro x hx
      subst hx
      simp [fmt, h, fmtDecimals]
    · rintro (rfl | rfl | rfl) <;> simp [fmt, h]

/-- C8 witness: the amended contract applied at `NaN` with unit `'mm'`. -/
theorem C8_fmt_contract_witness :
    ("mm" : String) ≠ "deg" ∧ fmt JSNum.nan ("mm") = FmtResult.placeholder :=
  ⟨by decide, ((C8_fmt_contract JSNum.nan ("mm")).2 (by decide)).2 (Or.inl rfl)⟩

/-! ### DXF round-trip lemmas -/

/-- The vertex scanner consumes exactly the vertex records emitted for a
polyline, returning the rounded coordinates and z-line tokens. -/
theorem parseVerts_flatMap (pts : List Point) (layer : String)
    (rest : List Token) :
    parseVerts (pts.flatMap (vertexTokens layer) ++
        Token.s ("0") :: Token.s ("SEQEND") :: rest) =
      (pts.map (fun p => (num p.1, num p.2, Token.s ("0"))),
        Token.s ("0") :: Token.s ("SEQEND") :: rest) := by
  induction pts with
  | nil =>
    have hnone : vertexOf? (Token.s ("0") :: Token.s ("SEQEND") :: rest) = none := by
      simp [vertexOf?]
    rw [List.flatMap_nil, List.nil_append, parseVerts_none hnone]
    simp
  | cons p ps ih =>
    have hsome : vertexOf? (vertexTokens layer p ++
        (ps.flatMap (vertexTokens layer) ++
          Token.s ("0") :: Token.s ("SEQEND") :: rest)) =
        some ((num p.1, num p.2, Token.s ("0")),
          ps.flatMap (vertexTokens layer) ++
            Token.s ("0") :: Token.s ("SEQEND") :: rest) := by
      simp [vertexTokens, vertexOf?]
    rw [List.flatMap_cons, List.append_assoc, parseVerts_some hsome, ih]
    simp

/-- The block scanner recognises an emitted `POLYLINE` entity head. -/
theorem blockHead?_polylineTokens (pts : List Point) (layer : String)
    (closed : Bool) (rest : List Token) :
    blockHead? (polylineTokens pts layer closed ++ rest) =
      some (layer, pts.flatMap (vertexTokens layer) ++
        Token.s ("0") :: Token.s ("SEQEND") :: rest) := by
  simp [polylineTokens, blockHead?]

/-- Parsing a full emitted entity block yields its layer and vertices and
continues with the remaining stream. -/
theorem parseBlocks_block (pts : List Point) (layer : String) (closed : Bool)
    (rest : List Token) :
    parseBlocks (polylineTokens pts layer closed ++ rest) =
      (layer, pts.map (fun p => (num p.1, num p.2, Token.s ("0")))) ::
        parseBlocks rest := by
  rw [parseBlocks_some (blockHead?_polylineTokens pts layer closed rest),
    parseVerts_flatMap]
  have h1 : blockHead? (Token.s ("0") :: Token.s ("SEQEND") :: rest) = none := by
    simp [blockHead?]
  have h2 : blockHead? (Token.s ("SEQEND") :: rest) = none := by
    simp [blockHead?]
  rw [parseBlocks_skip h1, parseBlocks_skip h2]

/-- The header contributes no blocks. -/
theorem parseBlocks_header (body : List Token) :
    parseBlocks (headerTokens ++ body) = parseBlocks body := by
  simp only [headerTokens, List.cons_append, List.nil_append]
  repeat rw [parseBlocks_skip (by simp [blockHead?])]

/-- The footer contributes no blocks. -/
theorem parseBlocks_footer : parseBlocks footerTokens = [] := by
  simp only [footerTokens]
  repeat rw [parseBlocks_skip (by simp [blockHead?])]
  exact parseBlocks_nil

/-- Round-trip over the entity section, with an arbitrary starting index. -/
theorem parse_dxf_aux (base : String) (polys : List (Option (List Point))) :
    ∀ n : ℕ,
    parseBlocks (((List.enumFrom n polys).flatMap fun ip =>
        match ip.2 with
        | none => []
        | some pts =>
          if pts.length < 2 then []
          else polylineTokens pts (base ++ "_" ++ toString (ip.1 + 1)) true) ++
      footerTokens) =
    (List.enumFrom n polys).filterMap fun ip =>
      match ip.2 with
      | none => none
      | some pts =>
        if pts.length < 2 then none
        else some (base ++ "_" ++ toString (ip.1 + 1),
          pts.map fun p => (num p.1, num p.2, Token.s ("0"))) := by
  induction polys with
  | nil =>
    intro n
    simp only [List.enumFrom_nil, List.flatMap_nil, List.nil_append,
      List.filterMap_nil]
    exact parseBlocks_footer
  | cons o ps ih =>
    intro n
    rw [List.enumFrom_cons]
    cases o with
    | none =>
      simp only [List.flatMap_cons, List.filterMap_cons]
      rw [List.nil_append]
      exact ih (n + 1)
    | some pts =>
      by_cases hlen : pts.length < 2
      · simp only [List.flatMap_cons, List.filterMap_cons, hlen, if_true]
        rw [List.nil_append]
        exact ih (n + 1)
      · simp only [List.flatMap_cons, List.filterMap_cons, hlen, if_false]
        rw [List.append_assoc, parseBlocks_block, ih (n + 1)]

/-- Full round-trip: parsing the exporter's output recovers exactly one
block per input entry having at least two points, tagged with the 1-based
original index, with one vertex per point carrying the 3-decimal-rounded
coordinates and the constant z-line `"0"`. -/
theorem parse_dxf (polys : List (Option (List Point))) (base : String) :
    parseBlocks (dxfFromPolylines polys base) =
      polys.enum.filterMap fun ip =>
        match ip.2 with
        | none => none
        | some pts =>
          if pts.length < 2 then none
          else some (base ++ "_" ++ toString (ip.1 + 1),
            pts.map fun p => (num p.1, num p.2, Token.s ("0"))) := by
  unfold dxfFromPolylines
  rw [List.append_assoc, parseBlocks_header, List.enum]
  exact parse_dxf_aux base polys 0

/-! ### C2 -/

/-- C2 counterexample: exporting `k = 1` polylines does *not* always yield
1 entity block — a 1-point polyline is skipped, so the output parses to no
blocks at all and contains no `POLYLINE` line. -/
theorem C2_counterexample :
    ([some [((0 : ℝ), (0 : ℝ))]] : List (Option (List Point))).length = 1 ∧
    parseBlocks (dxfFromPolylines [some [((0 : ℝ), (0 : ℝ))]] ("GEAR")) = [] ∧
    Token.s ("POLYLINE") ∉ dxfFromPolylines [some [((0 : ℝ), (0 : ℝ))]] ("GEAR") := by
  refine ⟨rfl, ?_, ?_⟩
  · rw [parse_dxf]
    simp [List.enum]
  · simp [dxfFromPolylines, headerTokens, footerTokens, List.enum]

/-- C2 amended: the output contains exactly one `POLYLINE` entity block
per input entry having at least 2 points (null/short entries contribute
none), the block of the `i`-th entry (1-based, original position) tagged
`<base>_<i>`, with exactly one `VERTEX` record per source point carrying
the 3-decimal-rounded x and y and the constant z-line `"0"`. -/
theorem C2_dxf_blocks (polys : List (Option (List Point))) (base : String) :
    parseBlocks (dxfFromPolylines polys base) =
      polys.enum.filterMap fun ip =>
        match ip.2 with
        | none => none
        | some pts =>
          if pts.length < 2 then none
          else some (base ++ "_" ++ toString (ip.1 + 1),
            pts.map fun p => (num p.1, num p.2, Token.s ("0"))) :=
  parse_dxf polys base

/-! ### C9 -/

/-- An input entry that produces an entity block: non-null with ≥ 2 points. -/
def keptEntry : Option (List Point) → Bool
  | none => false
  | some pts => 2 ≤ pts.length

/-- One parsed block per kept entry, whatever the starting index. -/
theorem parsed_length_aux (base : String) (polys : List (Option (List Point))) :
    ∀ n : ℕ,
    ((List.enumFrom n polys).filterMap fun ip =>
        match ip.2 with
        | none => none
        | some pts =>
          if pts.length < 2 then none
          else some (base ++ "_" ++ toString (ip.1 + 1),
            pts.map fun p => (num p.1, num p.2, Token.s ("0")))).length
      = (polys.filter keptEntry).length := by
  induction polys with
  | nil =>
    intro n
    rfl
  | cons o ps ih =>
    intro n
    rw [List.enumFrom_cons]
    cases o with
    | none =>
      simpa [List.filterMap_cons, List.filter_cons, keptEntry] using ih (n + 1)
    | some pts =>
      by_cases hlen : pts.length < 2
      · have hk : keptEntry (some pts) = false := by
          simp only [keptEntry, decide_eq_false_iff_not]
          omega
        simp [List.filterMap_cons, List.filter_cons, hlen, hk, ih (n + 1)]
      · have hk : keptEntry (some pts) = true := by
          simp only [keptEntry, decide_eq_true_eq]
          omega
        simp [List.filterMap_cons, List.filter_cons, hlen, hk, ih (n + 1)]

/-- C9: entries that are null or have fewer than 2 points are silently
skipped (one parsed block per kept entry), and the layer index of each
block follows the entry's original 1-based array position, so skipped
entries leave gaps in the numbering. -/
theorem C9_skipped_entries (polys : List (Option (List Point))) (base : String) :
    (parseBlocks (dxfFromPolylines polys base)).map Prod.fst =
      (polys.enum.filterMap fun ip =>
        match ip.2 with
        | none => none
        | some pts =>
          if pts.length < 2 then none
          else some (base ++ "_" ++ toString (ip.1 + 1))) ∧
    (parseBlocks (dxfFromPolylines polys base)).length =
      (polys.filter keptEntry).length := by
  rw [parse_dxf]
  constructor
  · rw [List.map_filterMap]
    apply List.filterMap_congr
    intro ip _
    match ip with
    | (i, none) => rfl
    | (i, some pts) =>
      by_cases hlen : pts.length < 2
      · simp [hlen]
      · simp [hlen]
  · rw [List.enum]
    exact parsed_length_aux base polys 0

/-! ### C1 -/

/-- A well-formed rack spec on which the rack outline doubles back:
`N = 20`, `D = 20/π` (so `m = 1/π` and `p = 1`), `φ = 45°`, zero backlash,
overridden addendum/dedendum `a = b = 1`, rack length `1`. -/
noncomputable def specRackX : GearInput :=
  ⟨GearType.rack, 20, 20 / Real.pi, Real.pi / 4, 0, some 1, some 1, 1, 48⟩

theorem specRackX_p : (computeGear specRackX).p = 1 := by
  have h1 : Real.pi * (20 / Real.pi / 20) = 1 := by
    have hpi : Real.pi ≠ 0 := Real.pi_ne_zero
    field_simp
  simp only [computeGear, specRackX]
  norm_num [h1]

theorem specRackX_a : (computeGear specRackX).a = 1 := by
  simp only [computeGear, specRackX]
  norm_num

theorem specRackX_b : (computeGear specRackX).b = 1 := by
  simp only [computeGear, specRackX]
  norm_num

theorem specRackX_s : (computeGear specRackX).s = 1 / 2 := by
  have h1 : Real.pi * (20 / Real.pi / 20) = 1 := by
    have hpi : Real.pi ≠ 0 := Real.pi_ne_zero
    field_simp
  simp only [computeGear, specRackX]
  norm_num [h1]

theorem specRackX_phi : (computeGear specRackX).phi = Real.pi / 4 := rfl

theorem specRackX_L : (computeGear specRackX).rackLength = 1 := rfl

/-- The full `top` array of the rack outline at this spec: the x-coordinate
visibly drops back to `0` after each tooth (entries 2→3, 6→7, 10→11). -/
theorem specRackX_topRaw :
    rackTopRaw (computeGear specRackX) 0 0 =
      [(0, 1), (0, -1), (1, 1), (0, 1), (0, -1), (1 / 4, -1), (1, 1),
       (0, 1), (3 / 4, -1), (1, -1), (1, 1), (0, 1), (1, -1), (1, 1),
       (3 / 4, 1), (1, -1), (1, 1)] := by
  unfold rackTopRaw
  simp only [specRackX_p, specRackX_a, specRackX_b, specRackX_s,
    specRackX_phi, specRackX_L, Real.tan_pi_div_four]
  rw [show rackCount 1 1 = 3 by unfold rackCount; norm_num]
  rw [show (Int.toNat 3 + 2) = 5 from rfl]
  rw [show List.range 5 = [0, 1, 2, 3, 4] from by decide]
  simp only [List.foldl_cons, List.foldl_nil]
  norm_num [rackTooth, pushPt, List.getLast?, abs_div, abs_sub_comm]

/-- C1: evaluation of `buildRackPath` at the failing input `specRackX`
(p = 1 > 0, s = 1/2 ≥ 0, φ = π/4 ∈ (0, π/2), L = 1 > 0): the `top`
sub-sequence (all points of the returned polyline preceding the two
backing-plate points) contains the consecutive points `(1, 1)` and
`(0, 1)` at indices 2 and 3 — its x-coordinates are *not* non-decreasing
and the outline doubles back over itself, contradicting the claim and the
source comment "We build a monotonic outline left→right (no
self-crossing)". -/
theorem C1_rack_top_doubles_back :
    buildRackPath (computeGear specRackX) 0 0 =
      rackTopPts (computeGear specRackX) 0 0 ++ [(1, 2.2), (0, 2.2)] ∧
    (rackTopPts (computeGear specRackX) 0 0).get? 2 = some (1, 1) ∧
    (rackTopPts (computeGear specRackX) 0 0).get? 3 = some (0, 1) ∧
    ¬ ((1 : ℝ) ≤ 0) := by
  have htp : rackTopPts (computeGear specRackX) 0 0 =
      rackTopRaw (computeGear specRackX) 0 0 := by
    unfold rackTopPts
    simp only [specRackX_topRaw, specRackX_L]
    norm_num [List.getLastD]
    simp
  refine ⟨?_, ?_, ?_, by norm_num⟩
  · unfold buildRackPath
    simp only [specRackX_L, specRackX_b]
    norm_num
  · rw [htp, specRackX_topRaw]
    rfl
  · rw [htp, specRackX_topRaw]
    rfl

/-! ### C4: radius bounds of the external gear outline -/

/-- For `0 < rb ≤ r`, the involute point at the clamped parameter
`sqrt(max(0, (r/rb)² − 1))` lies at radius exactly `r`. -/
theorem sqrt_target {rb r : ℝ} (hrb : 0 < rb) (hr : rb ≤ r) :
    rb * Real.sqrt (1 + Real.sqrt (max 0 (r * r / (rb * rb) - 1)) ^ 2) = r := by
  have harg : (0 : ℝ) ≤ r * r / (rb * rb) - 1 := by
    rw [sub_nonneg, le_div_iff (by positivity)]
    nlinarith
  rw [max_eq_right harg, Real.sq_sqrt harg]
  have h1 : 1 + (r * r / (rb * rb) - 1) = (r / rb) ^ 2 := by
    field_simp
    ring
  rw [h1, Real.sqrt_sq (div_nonneg (by linarith) hrb.le)]
  field_simp

/-- Every point of the (clamp-adjusted) left flank lies at a radius
between `rb` and `max(ra, rr)` (the involute samples stay below `ra`; the
clamped first point sits at `rStart = max(rr, rb)`, which can exceed `ra`
only when the floored root radius does). -/
theorem extLeftFlank_norm_bounds (c : Dims) (samples : ℕ)
    (hrb : 0 < c.Db / 2) (hba : c.Db / 2 ≤ c.Do_ext / 2) :
    ∀ pt ∈ extLeftFlank c samples,
      c.Db / 2 ≤ norm2 pt ∧
        norm2 pt ≤ max (c.Do_ext / 2) (c.Dr_ext / 2) := by
  intro pt hpt
  unfold extLeftFlank at hpt
  rcases List.mem_or_eq_of_mem_set hpt with hmem | heq
  · simp only [sampleInvolute, List.map_map, List.mem_map, List.mem_range] at hmem
    obtain ⟨i, hi, hpt'⟩ := hmem
    rw [← hpt', Function.comp_apply, norm2_rotate,
      norm2_involutePoint _ hrb.le]
    have htM : 0 ≤ Real.sqrt (max 0 (c.Do_ext / 2 * (c.Do_ext / 2) /
        (c.Db / 2 * (c.Db / 2)) - 1)) := Real.sqrt_nonneg _
    have hfrac0 : 0 ≤ (i : ℝ) / (samples : ℝ) := by positivity
    have hfrac1 : (i : ℝ) / (samples : ℝ) ≤ 1 := by
      rcases Nat.eq_zero_or_pos samples with hz | hpos
      · simp [hz]
      · rw [div_le_one (by exact_mod_cast hpos)]
        exact_mod_cast Nat.lt_succ_iff.mp hi
    set tM := Real.sqrt (max 0 (c.Do_ext / 2 * (c.Do_ext / 2) /
        (c.Db / 2 * (c.Db / 2)) - 1)) with htMdef
    set t := tM * ((i : ℝ) / (samples : ℝ)) with htdef
    have ht0 : 0 ≤ t := mul_nonneg htM hfrac0
    have htle : t ≤ tM := by
      calc t = tM * ((i : ℝ) / (samples : ℝ)) := rfl
      _ ≤ tM * 1 := mul_le_mul_of_nonneg_left hfrac1 htM
      _ = tM := mul_one tM
    have h1s : 1 ≤ Real.sqrt (1 + t ^ 2) := by
      have hs := Real.sq_sqrt (show (0 : ℝ) ≤ 1 + t ^ 2 by positivity)
      have hsn := Real.sqrt_nonneg (1 + t ^ 2)
      nlinarith [sq_nonneg t, sq_nonneg (Real.sqrt (1 + t ^ 2) - 1)]
    constructor
    · calc c.Db / 2 = c.Db / 2 * 1 := (mul_one _).symm
      _ ≤ c.Db / 2 * Real.sqrt (1 + t ^ 2) :=
          mul_le_mul_of_nonneg_left h1s hrb.le
    · calc c.Db / 2 * Real.sqrt (1 + t ^ 2)
          ≤ c.Db / 2 * Real.sqrt (1 + tM ^ 2) := by
            apply mul_le_mul_of_nonneg_left _ hrb.le
            apply Real.sqrt_le_sqrt
            nlinarith
      _ = c.Do_ext / 2 := sqrt_target hrb hba
      _ ≤ max (c.Do_ext / 2) (c.Dr_ext / 2) := le_max_left _ _
  · rw [heq, norm2_rotate, norm2_involutePoint _ hrb.le,
      sqrt_target hrb (le_max_right (c.Dr_ext / 2) (c.Db / 2))]
    refine ⟨le_max_right _ _, max_le (le_max_right _ _) ?_⟩
    exact le_trans hba (le_max_left _ _)

/-- Every point of one external tooth outline lies at a radius between
`min(rr, rb)` and `max(ra, rr)`. -/
theorem extToothPts_norm_bounds (c : Dims) (samples : ℕ)
    (hrb : 0 < c.Db / 2) (hrr : 0 < c.Dr_ext / 2)
    (hba : c.Db / 2 ≤ c.Do_ext / 2) :
    ∀ pt ∈ extToothPts c samples,
      min (c.Dr_ext / 2) (c.Db / 2) ≤ norm2 pt ∧
        norm2 pt ≤ max (c.Do_ext / 2) (c.Dr_ext / 2) := by
  have hflank := extLeftFlank_norm_bounds c samples hrb hba
  intro pt hpt
  unfold extToothPts at hpt
  simp only [List.mem_append] at hpt
  rcases hpt with ((hL | hTip) | hR) | hRoot
  · have h := hflank pt hL
    exact ⟨le_trans (min_le_right _ _) h.1, h.2⟩
  · unfold extTipPts at hTip
    simp only [List.mem_map] at hTip
    obtain ⟨i, _, hpt'⟩ := hTip
    rw [← hpt', norm2_polar, abs_of_pos (lt_of_lt_of_le hrb hba)]
    exact ⟨le_trans (min_le_right _ _) hba, le_max_left _ _⟩
  · unfold extRightFlank at hR
    rw [List.mem_reverse] at hR
    simp only [List.mem_map] at hR
    obtain ⟨q, hq, hpt'⟩ := hR
    have h := hflank q hq
    rw [← hpt', norm2_mirror]
    exact ⟨le_trans (min_le_right _ _) h.1, h.2⟩
  · unfold extRootPts at hRoot
    simp only [List.mem_map] at hRoot
    obtain ⟨i, _, hpt'⟩ := hRoot
    rw [← hpt', norm2_polar, abs_of_pos hrr]
    exact ⟨min_le_left _ _, le_max_right _ _⟩

/-- Derived radius facts for a well-formed external spec. -/
theorem computeGear_ext_facts (inp : GearInput)
    (htype : inp.type = GearType.external) (hD : 0 < inp.D)
    (hN : 0 < inp.N) (hphi1 : 0 < inp.phi) (hphi2 : inp.phi < Real.pi / 2) :
    0 < (computeGear inp).Db / 2 ∧ 0 < (computeGear inp).Dr_ext / 2 ∧
    (computeGear inp).Db / 2 ≤ (computeGear inp).Do_ext / 2 := by
  have hD0 : (0 : ℝ) < inp.D := hD
  have hm : 0 < (computeGear inp).m := by
    have hmeq : (computeGear inp).m = inp.D / inp.N := by
      simp only [computeGear, htype]
    rw [hmeq]
    exact div_pos hD0 (by exact_mod_cast hN)
  have ha : 0 < (computeGear inp).a := by
    have haeq : (computeGear inp).a =
        match inp.addendum with
        | some v => if 0 < v then v else 1.0 * (computeGear inp).m
        | none => 1.0 * (computeGear inp).m := rfl
    rw [haeq]
    cases inp.addendum with
    | none =>
      exact mul_pos (by norm_num) hm
    | some v =>
      by_cases hv : 0 < v
      · simpa [hv] using hv
      · simp only [hv, if_false]
        exact mul_pos (by norm_num) hm
  have hb : 0 < (computeGear inp).b := by
    have hbeq : (computeGear inp).b =
        match inp.dedendum with
        | some v => if 0 < v then v else 1.25 * (computeGear inp).m
        | none => 1.25 * (computeGear inp).m := rfl
    rw [hbeq]
    cases inp.dedendum with
    | none =>
      exact mul_pos (by norm_num) hm
    | some v =>
      by_cases hv : 0 < v
      · simpa [hv] using hv
      · simp only [hv, if_false]
        exact mul_pos (by norm_num) hm
  have hDb : (computeGear inp).Db = inp.D * Real.cos inp.phi := by
    simp only [computeGear, htype]
  have hDo : (computeGear inp).Do_ext = inp.D + 2 * (computeGear inp).a := rfl
  have hDr : (computeGear inp).Dr_ext
      = max 0.001 (inp.D - 2 * (computeGear inp).b) := rfl
  have hcos1 : Real.cos inp.phi ≤ 1 := Real.cos_le_one _
  have hcos0 : 0 < Real.cos inp.phi := by
    apply Real.cos_pos_of_mem_Ioo
    constructor
    · have := Real.pi_pos
      linarith
    · exact hphi2
  refine ⟨?_, ?_, ?_⟩
  · rw [hDb]
    positivity
  · rw [hDr]
    have : (0.001 : ℝ) ≤ max 0.001 (inp.D - 2 * (computeGear inp).b) :=
      le_max_left _ _
    linarith
  · rw [hDb, hDo]
    nlinarith

/-- C4 amended: for every well-formed external spec (`D > 0`, the spec's
own domain — no stronger size hypothesis), `buildExternalGearPath` returns
exactly `N` polylines, each with the same number of points (the tooth
point count), and every point's distance from the center lies in
`[min(rr, rb) − 1e-6, max(ra, rr) + 1e-6]`.  Two corrections to the
claimed interval `[min(rr, rStart), ra]`: the lower bound `min(rr, rStart)`
equals `rr` (since `rStart = max(rr, rb)`) while the involute flank is
sampled from the base circle `rb`, which lies below `rr` for large tooth
counts; and the upper bound must be `max(ra, rr)` because the root radius
is floored at `0.001`, which exceeds `ra` when `D + 2a < 0.001` — for
ordinary gears (`rr ≤ ra`) the upper bound is `ra` as claimed. -/
theorem C4_external_gear_bounds (inp : GearInput)
    (htype : inp.type = GearType.external) (hD : 0 < inp.D)
    (hN : 0 < inp.N) (hphi1 : 0 < inp.phi) (hphi2 : inp.phi < Real.pi / 2)
    (hsamp : 12 ≤ inp.samples) (cx cy : ℝ) :
    (buildExternalGearPath (computeGear inp) inp.samples cx cy).length = inp.N ∧
    (∀ poly ∈ buildExternalGearPath (computeGear inp) inp.samples cx cy,
      poly.length = (extToothPts (computeGear inp) inp.samples).length) ∧
    (∀ poly ∈ buildExternalGearPath (computeGear inp) inp.samples cx cy,
      ∀ pt ∈ poly,
        min ((computeGear inp).Dr_ext / 2) ((computeGear inp).Db / 2) - 1e-6
            ≤ distPt pt (cx, cy) ∧
        distPt pt (cx, cy) ≤
          max ((computeGear inp).Do_ext / 2) ((computeGear inp).Dr_ext / 2)
            + 1e-6) := by
  obtain ⟨hrb, hrr, hba⟩ :=
    computeGear_ext_facts inp htype hD hN hphi1 hphi2
  have hN' : (computeGear inp).N = inp.N := rfl
  refine ⟨?_, ?_, ?_⟩
  · unfold buildExternalGearPath
    rw [List.length_map, List.length_range, hN']
  · intro poly hpoly
    unfold buildExternalGearPath at hpoly
    simp only [List.mem_map, List.mem_range] at hpoly
    obtain ⟨k, _, hk⟩ := hpoly
    rw [← hk, List.length_map]
  · intro poly hpoly pt hpt
    unfold buildExternalGearPath at hpoly
    simp only [List.mem_map, List.mem_range] at hpoly
    obtain ⟨k, _, hk⟩ := hpoly
    rw [← hk] at hpt
    simp only [List.mem_map] at hpt
    obtain ⟨q, hq, hpt'⟩ := hpt
    have hbound := extToothPts_norm_bounds (computeGear inp) inp.samples
      hrb hrr hba q hq
    rw [← hpt', distPt_translate, norm2_rotate]
    have heps : (0 : ℝ) < 1e-6 := by norm_num
    exact ⟨by linarith [hbound.1], by linarith [hbound.2]⟩

/-- The external spec `N=10, D=40, φ=60°, samples=12` (so `rb = 10`,
`ra = 24`, `rr = 15 > rb`): used to refute the claimed radius interval. -/
noncomputable def specExt10 : GearInput :=
  ⟨GearType.external, 10, 40, Real.pi / 3, 0, none, none, 0, 12⟩

theorem specExt10_Db : (computeGear specExt10).Db = 20 := by
  simp only [computeGear, specExt10]
  norm_num [Real.cos_pi_div_three]

theorem specExt10_Do : (computeGear specExt10).Do_ext = 48 := by
  simp only [computeGear, specExt10]
  norm_num

theorem specExt10_Dr : (computeGear specExt10).Dr_ext = 30 := by
  simp only [computeGear, specExt10]
  norm_num

/-- C4 counterexample: at `specExt10` the first tooth polyline's second
point is the flank sample at parameter `tMax/12`, whose distance from the
center is `10·sqrt(1 + 119/3600) ≈ 10.16` — strictly below the claim's
lower bound `min(rr, rStart) − 1e-6 = 15 − 1e-6` (here `rStart = max(rr, rb)
= 15`), refuting the claimed interval. -/
theorem C4_counterexample :
    ((buildExternalGearPath (computeGear specExt10) 12 0 0).headD []).get? 1 =
      some (rotate (involutePoint 10 (Real.sqrt (119 / 25) * (1 / 12)))
        (pitchRotAngle (computeGear specExt10))) ∧
    distPt (rotate (involutePoint 10 (Real.sqrt (119 / 25) * (1 / 12)))
        (pitchRotAngle (computeGear specExt10))) (0, 0) <
      min ((computeGear specExt10).Dr_ext / 2)
        (max ((computeGear specExt10).Dr_ext / 2)
          ((computeGear specExt10).Db / 2)) - 1e-6 := by
  constructor
  · have hN : (computeGear specExt10).N = 10 := rfl
    unfold buildExternalGearPath
    rw [hN]
    rw [show List.range 10 = 0 :: [1, 2, 3, 4, 5, 6, 7, 8, 9] from by decide]
    simp only [List.map_cons, List.headD_cons, Nat.cast_zero, zero_mul,
      rotate_zero, translate_zero, List.map_id']
    unfold extToothPts
    have hlen : (extLeftFlank (computeGear specExt10) 12).length = 13 := by
      unfold extLeftFlank
      simp [sampleInvolute]
    rw [List.get?_append (show 1 < ((extLeftFlank (computeGear specExt10) 12 ++
        extTipPts (computeGear specExt10) 12) ++
        extRightFlank (computeGear specExt10) 12).length by
      simp only [List.length_append, hlen]
      omega)]
    rw [List.get?_append (show 1 < (extLeftFlank (computeGear specExt10) 12 ++
        extTipPts (computeGear specExt10) 12).length by
      simp only [List.length_append, hlen]
      omega)]
    rw [List.get?_append (show 1 < (extLeftFlank (computeGear specExt10) 12).length by
      rw [hlen]; norm_num)]
    unfold extLeftFlank
    dsimp only
    rw [List.get?_eq_getElem?, List.getElem?_set_ne (by norm_num)]
    simp only [sampleInvolute, List.map_map, List.getElem?_map,
      List.getElem?_range (by norm_num : (1 : ℕ) < 13)]
    simp only [Option.map_some', Function.comp_apply, Nat.cast_one]
    rw [specExt10_Db, specExt10_Do]
    norm_num [max_eq_right]
  · rw [distPt_origin, norm2_rotate,
      norm2_involutePoint _ (by norm_num : (0 : ℝ) ≤ 10),
      specExt10_Dr, specExt10_Db]
    have hsq : (Real.sqrt (119 / 25) * (1 / 12)) ^ 2 = (119 : ℝ) / 3600 := by
      rw [mul_pow, Real.sq_sqrt (by norm_num : (0 : ℝ) ≤ 119 / 25)]
      norm_num
    rw [hsq, show (1 : ℝ) + 119 / 3600 = 3719 / 3600 by norm_num]
    have hlt : Real.sqrt ((3719 : ℝ) / 3600) < 1.02 := by
      rw [Real.sqrt_lt' (by norm_num)]
      norm_num
    have hminmax : min ((30 : ℝ) / 2) (max ((30 : ℝ) / 2) ((20 : ℝ) / 2)) = 15 := by
      norm_num
    rw [hminmax]
    nlinarith [hlt]

/-- C4 witness: the amended theorem applied at a concrete external spec. -/
theorem C4_external_gear_bounds_witness :
    (⟨GearType.external, 10, 40, Real.pi / 3, 0, none, none, 0, 12⟩ :
        GearInput).type = GearType.external ∧
    (buildExternalGearPath
      (computeGear ⟨GearType.external, 10, 40, Real.pi / 3, 0, none, none, 0, 12⟩)
      12 0 0).length = 10 :=
  ⟨rfl,
   (C4_external_gear_bounds
      ⟨GearType.external, 10, 40, Real.pi / 3, 0, none, none, 0, 12⟩ rfl
      (by norm_num) (by norm_num) (by positivity)
      (by have h := Real.pi_pos; linarith) le_rfl 0 0).1⟩

/-! ### C7: the tip arc — point count and traversal direction -/

/-- A rotated involute point in polar form: it lies at angle
`t + ρ − arctan t` and radius `rb·sqrt(1+t²)`. -/
theorem rotate_involutePoint_polar (rb t rho : ℝ) :
    rotate (involutePoint rb t) rho =
      (rb * Real.sqrt (1 + t ^ 2) * Real.cos (t + rho - Real.arctan t),
       rb * Real.sqrt (1 + t ^ 2) * Real.sin (t + rho - Real.arctan t)) := by
  have hc := Real.cos_arctan t
  have hs := Real.sin_arctan t
  have hpos : (0 : ℝ) < Real.sqrt (1 + t ^ 2) := by positivity
  unfold rotate involutePoint
  have hx : rb * Real.sqrt (1 + t ^ 2) * Real.cos (t + rho - Real.arctan t)
      = rb * (Real.cos t + t * Real.sin t) * Real.cos rho -
        rb * (Real.sin t - t * Real.cos t) * Real.sin rho := by
    rw [Real.cos_sub, hc, hs, Real.cos_add, Real.sin_add]
    field_simp
    ring
  have hy : rb * Real.sqrt (1 + t ^ 2) * Real.sin (t + rho - Real.arctan t)
      = rb * (Real.cos t + t * Real.sin t) * Real.sin rho +
        rb * (Real.sin t - t * Real.cos t) * Real.cos rho := by
    rw [Real.sin_sub, hc, hs, Real.cos_add, Real.sin_add]
    field_simp
    ring
  rw [Prod.mk.injEq]
  exact ⟨hx.symm, hy.symm⟩

/-- `atan2` recovers the angle of a point in polar form when the angle is
in the right half-plane. -/
theorem atan2_polar {R theta : ℝ} (hR : 0 < R) (h1 : -(Real.pi / 2) < theta)
    (h2 : theta < Real.pi / 2) :
    atan2 (R * Real.sin theta) (R * Real.cos theta) = theta := by
  have hcos : 0 < Real.cos theta := Real.cos_pos_of_mem_Ioo ⟨h1, h2⟩
  have hx : 0 < R * Real.cos theta := mul_pos hR hcos
  unfold atan2
  rw [if_pos hx]
  have hdiv : R * Real.sin theta / (R * Real.cos theta) = Real.tan theta := by
    rw [Real.tan_eq_sin_div_cos]
    field_simp
    ring
  rw [hdiv, Real.arctan_tan h1 h2]

/-- Setting index 0 does not change the last element of a list with at
least two elements. -/
theorem getLastD_set_zero {α : Type} (l : List α) (a d : α)
    (h : 1 < l.length) : (l.set 0 a).getLastD d = l.getLastD d := by
  match l with
  | [] => simp at h
  | [x] => simp at h
  | x :: y :: ys =>
    simp only [List.set]
    rw [List.getLastD_cons, List.getLastD_cons, List.getLastD_cons,
      List.getLastD_cons]

/-- Same for `getLast?`. -/
theorem getLast?_set_zero {α : Type} (l : List α) (a : α)
    (h : 1 < l.length) : (l.set 0 a).getLast? = l.getLast? := by
  match l with
  | [] => simp at h
  | [x] => simp at h
  | x :: y :: ys =>
    simp only [List.set]
    rw [List.getLast?_cons_cons, List.getLast?_cons_cons]

theorem arctan_sqrt_three : Real.arctan (Real.sqrt 3) = Real.pi / 3 := by
  have hpi := Real.pi_pos
  have htan : Real.tan (Real.pi / 3) = Real.sqrt 3 := by
    rw [Real.tan_eq_sin_div_cos, Real.sin_pi_div_three, Real.cos_pi_div_three]
    field_simp
  rw [← htan, Real.arctan_tan (by linarith) (by linarith)]

theorem sqrt_three_bounds :
    (1.73 : ℝ) < Real.sqrt 3 ∧ Real.sqrt 3 < 1.7321 := by
  constructor
  · rw [Real.lt_sqrt (by norm_num)]
    norm_num
  · rw [Real.sqrt_lt' (by norm_num)]
    norm_num

theorem sqrt_tmax_bounds :
    (2.18 : ℝ) < Real.sqrt (119 / 25) ∧ Real.sqrt (119 / 25) < 2.19 := by
  constructor
  · rw [Real.lt_sqrt (by norm_num)]
    norm_num
  · rw [Real.sqrt_lt' (by norm_num)]
    norm_num

theorem specExt10_s : (computeGear specExt10).s = 2 * Real.pi := by
  have hpi := Real.pi_pos
  simp only [computeGear, specExt10]
  rw [show Real.pi * ((40 : ℝ) / ((10 : ℕ) : ℝ)) / 2 - 0 = 2 * Real.pi by
    push_cast
    ring]
  exact max_eq_right (by linarith)

/-- The flank rotation angle at `specExt10`: `π/20 − (√3 − π/3)`. -/
theorem specExt10_rot :
    pitchRotAngle (computeGear specExt10) =
      Real.pi / 20 - (Real.sqrt 3 - Real.pi / 3) := by
  have h3 := sqrt_three_bounds
  have hpl := Real.pi_lt_d2
  have hpg := Real.pi_gt_d2
  unfold pitchRotAngle
  dsimp only
  rw [specExt10_s, show (computeGear specExt10).D = 40 from rfl, specExt10_Db]
  rw [show (40 : ℝ) / 2 * ((40 : ℝ) / 2) / ((20 : ℝ) / 2 * ((20 : ℝ) / 2)) - 1
      = 3 by norm_num]
  rw [max_eq_right (by norm_num : (0 : ℝ) ≤ 3)]
  rw [show (2 : ℝ) * Real.pi / (2 * (40 / 2)) = Real.pi / 20 by ring]
  congr 1
  unfold angleOfPoint
  rw [show (20 : ℝ) / 2 = 10 by norm_num]
  have hpolar := rotate_involutePoint_polar 10 (Real.sqrt 3) 0
  rw [rotate_zero] at hpolar
  rw [hpolar]
  dsimp only
  rw [Real.sq_sqrt (by norm_num : (0 : ℝ) ≤ 3),
    show (1 : ℝ) + 3 = 4 by norm_num,
    show Real.sqrt 4 = 2 by
      rw [show (4 : ℝ) = 2 ^ 2 by norm_num, Real.sqrt_sq (by norm_num)],
    arctan_sqrt_three, add_zero]
  exact atan2_polar (by norm_num) (by linarith) (by linarith)

/-- The last left-flank point at `specExt10` is the involute point at
`tMax = sqrt(119/25)`, rotated. -/
theorem specExt10_tipL_last :
    (extLeftFlank (computeGear specExt10) 12).getLast? =
      some (rotate (involutePoint 10 (Real.sqrt (119 / 25)))
        (pitchRotAngle (computeGear specExt10))) := by
  unfold extLeftFlank
  dsimp only
  rw [getLast?_set_zero _ _ (by simp [sampleInvolute])]
  simp only [sampleInvolute, List.map_map]
  rw [List.range_succ, List.map_append]
  simp only [List.map_cons, List.map_nil]
  rw [List.getLast?_concat]
  simp only [Function.comp_apply]
  rw [specExt10_Db, specExt10_Do]
  norm_num [max_eq_right]

theorem specExt10_tipL :
    (extLeftFlank (computeGear specExt10) 12).getLastD (0, 0) =
      rotate (involutePoint 10 (Real.sqrt (119 / 25)))
        (pitchRotAngle (computeGear specExt10)) := by
  rw [List.getLastD_eq_getLast?, specExt10_tipL_last]
  rfl

theorem specExt10_tipR :
    (extRightFlank (computeGear specExt10) 12).headD (0, 0) =
      ((rotate (involutePoint 10 (Real.sqrt (119 / 25)))
          (pitchRotAngle (computeGear specExt10))).1,
       -(rotate (involutePoint 10 (Real.sqrt (119 / 25)))
          (pitchRotAngle (computeGear specExt10))).2) := by
  unfold extRightFlank
  rw [List.headD_eq_head?, List.head?_reverse, List.getLast?_map,
    specExt10_tipL_last]
  rfl

/-- C7: evaluation of the tip arc at `specExt10` (`samples = 12`): it has
only 9 points — fewer than the claimed minimum `max(10, samples/2) = 10` —
and the wrapped angular span `ang2 − ang1` exceeds `π`, i.e. the arc is
traversed the *longer* way around, contradicting the claim and the
source comment "Ensure we go the shorter way across the top". -/
theorem C7_tip_arc_eval :
    (extTipPts (computeGear specExt10) 12).length = 9 ∧
    (extTipPts (computeGear specExt10) 12).length < arcSteps 12 ∧
    Real.pi < (extTipAngles (computeGear specExt10) 12).2 -
      (extTipAngles (computeGear specExt10) 12).1 := by
  have hlen : (extTipPts (computeGear specExt10) 12).length = 9 := by
    unfold extTipPts
    dsimp only
    rw [List.length_map, List.length_range']
    decide
  refine ⟨hlen, by rw [hlen]; decide, ?_⟩
  have htM := sqrt_tmax_bounds
  have h3 := sqrt_three_bounds
  have hpl := Real.pi_lt_d2
  have hpg := Real.pi_gt_d2
  have hat1 : Real.pi / 4 < Real.arctan (Real.sqrt (119 / 25)) := by
    rw [← Real.arctan_one]
    exact Real.arctan_strictMono (by linarith [htM.1])
  have hat2 : Real.arctan (Real.sqrt (119 / 25)) < Real.pi / 2 :=
    Real.arctan_lt_pi_div_two _
  have hpolar := rotate_involutePoint_polar 10 (Real.sqrt (119 / 25))
    (pitchRotAngle (computeGear specExt10))
  have hR : 10 * Real.sqrt (1 + Real.sqrt (119 / 25) ^ 2) = 24 := by
    rw [Real.sq_sqrt (by norm_num : (0 : ℝ) ≤ 119 / 25),
      show (1 : ℝ) + 119 / 25 = (12 / 5) ^ 2 by norm_num,
      Real.sqrt_sq (by norm_num)]
    norm_num
  set theta := Real.sqrt (119 / 25) + pitchRotAngle (computeGear specExt10) -
    Real.arctan (Real.sqrt (119 / 25)) with hthetadef
  clear_value theta
  have hrot := specExt10_rot
  have htheta1 : 0 < theta := by
    rw [hthetadef, hrot]
    linarith
  have htheta2 : theta < Real.pi / 2 := by
    rw [hthetadef, hrot]
    linarith
  have hangL : atan2 (24 * Real.sin theta) (24 * Real.cos theta) = theta :=
    atan2_polar (by norm_num) (by linarith) htheta2
  have hangR : atan2 (-(24 * Real.sin theta)) (24 * Real.cos theta) = -theta := by
    have h := @atan2_polar 24 (-theta) (by norm_num)
      (by linarith) (by linarith)
    rw [Real.sin_neg, Real.cos_neg] at h
    rw [show -(24 * Real.sin theta) = 24 * -Real.sin theta by ring]
    exact h
  unfold extTipAngles
  dsimp only
  rw [specExt10_tipL, specExt10_tipR, hpolar]
  dsimp only
  rw [hR, hangL, hangR]
  rw [if_pos (by linarith : -theta < theta)]
  linarith

end GearGeom
